import Mathlib

/-!
# Verification of the OIDC consent-flow orchestration

A shallow embedding of the consent-submission handler (`POST` in
`src/packages/openapi/src/helpers/message.ts`) and of
`OIDCService.findOrCreateGrants`, together with theorems settling the
spec's claims about them.

TypeScript `string | undefined` values are embedded as `Option String`;
JavaScript truthiness of such a value (`undefined` and `""` are falsy) is
`optTruthy`.  The external collaborators (the oidc-provider engine's
`Grant` methods, `getUserAuth`, `correctOIDCUrl`, the WHATWG `URL`
constructor) are embedded as parameters of an `Env` record or, where the
spec fixes their behaviour, as definitions modelled from the spec.
-/

/-- JavaScript truthiness of a `string | undefined` value:
`undefined` and the empty string are falsy. -/
def optTruthy : Option String → Bool
  | none => false
  | some s => s ≠ ""

/-! ## Set-union primitives for Grant accumulation -/

/-- Insert a token into a token set (kept as a duplicate-free list)
only if it is not already present. -/
def setInsert (l : List String) (x : String) : List String :=
  if x ∈ l then l else l ++ [x]

/-- Set-union of a token set with a list of tokens. -/
def setUnion (l : List String) (xs : List String) : List String :=
  xs.foldl setInsert l

/-- Split a space-joined scope string into its non-empty tokens.
`tokensAux cs acc` scans `cs` with `acc` holding the current token reversed. -/
def tokensAux : List Char → List Char → List String
  | [], acc => if acc = [] then [] else [String.mk acc.reverse]
  | c :: cs, acc =>
    if c = ' ' then
      if acc = [] then tokensAux cs [] else String.mk acc.reverse :: tokensAux cs []
    else tokensAux cs (c :: acc)

/-- The token set denoted by a space-joined scope string (empty tokens dropped). -/
def tokens (s : String) : List String := tokensAux s.data []

/-- Join a list of scope strings with spaces, as `Array.prototype.join(' ')` does. -/
def joinSpace (l : List String) : String := String.intercalate " " l

/-! ## The Grant entity -/

/-- The engine's `Grant` entity as this orchestration layer observes it:
an owning account (`string | undefined` in the engine), a client, and the
accumulated scope / claim / resource-scope sets. -/
structure Grant where
  accountId : Option String
  clientId : String
  oidcScopes : List String
  oidcClaims : List String
  resourceScopes : List (String × List String)
deriving DecidableEq, Repr

/-- Modelled from the spec: `Grant.prototype.addOIDCScope` of the engine is an
external collaborator (not in `src/`); per §4.2 it merges each token of the
space-joined scope string into the Grant's scope set with set-union semantics. -/
def Grant.addOIDCScope (g : Grant) (scope : String) : Grant :=
  { g with oidcScopes := setUnion g.oidcScopes (tokens scope) }

/-- Modelled from the spec: `Grant.prototype.addOIDCClaims` of the engine is an
external collaborator (not in `src/`); per §4.2 it merges each claim name
into the Grant's claim set with set-union semantics. -/
def Grant.addOIDCClaims (g : Grant) (claims : List String) : Grant :=
  { g with oidcClaims := setUnion g.oidcClaims claims }

/-- Update the resource-scope map at one indicator, set-unioning in `xs`;
a missing indicator gets a fresh entry. -/
def rsUpdate : List (String × List String) → String → List String → List (String × List String)
  | [], ind, xs => [(ind, setUnion [] xs)]
  | (i, s) :: rest, ind, xs =>
    if i = ind then (i, setUnion s xs) :: rest else (i, s) :: rsUpdate rest ind xs

/-- Modelled from the spec: `Grant.prototype.addResourceScope` of the engine is
an external collaborator (not in `src/`); per §4.2 it merges the tokens of the
space-joined scope string into that resource indicator's scope set. -/
def Grant.addResourceScope (g : Grant) (indicator : String) (scope : String) : Grant :=
  { g with resourceScopes := rsUpdate g.resourceScopes indicator (tokens scope) }

/-! ## findOrCreateGrants (OIDCService) -/

/-- Operations on Grants, recorded as a trace so that the frame claims
("no Grant is looked up / created / mutated / saved") are statable. -/
inductive GrantOp where
  | find (grantId : String)
  | create (accountId clientId : String)
  | addScope (scope : String)
  | addClaims (claims : List String)
  | addResourceScope (indicator scope : String)
  | save
deriving DecidableEq, Repr

/-- The service operation `OIDCService.findOrCreateGrants(accountId, clientId,
existingGrantId)`:
if a truthy `existingGrantId` is given, load the Grant; if the loaded Grant
carries a truthy `accountId` different from the caller's, discard it; if no
Grant survives, construct a fresh one from `{accountId, clientId}`.
The Grant store (`provider.Grant.find`) is the parameter `store`.
Returns the Grant together with the trace of Grant operations performed. -/
def findOrCreateGrants (store : String → Option Grant) (accountId : String)
    (clientId : String) (existingGrantId : Option String) : Grant × List GrantOp :=
  let found : Option Grant × List GrantOp :=
    match existingGrantId with
    | none => (none, [])
    | some gid =>
      if gid = "" then (none, [])
      else
        let g0 := store gid
        let g1 :=
          match g0 with
          | none => none
          | some g =>
            if optTruthy g.accountId ∧ g.accountId ≠ some accountId then none else some g
        (g1, [GrantOp.find gid])
  match found with
  | (some g, ops) => (g, ops)
  | (none, ops) =>
    (⟨some accountId, clientId, [], [], []⟩, ops ++ [GrantOp.create accountId clientId])

/-! ## Interactions and the merge step -/

/-- The interaction details the handler consumes: prompt name, prompt details
(missing scope/claim/resource-scope sets, each possibly absent), the client id,
an optional pre-existing grant id, and the engine session's account id. -/
structure Interaction where
  promptName : String
  clientId : String
  grantId : Option String
  sessionAccountId : Option String
  missingOIDCScope : Option (List String)
  missingOIDCClaims : Option (List String)
  missingResourceScopes : Option (List (String × List String))
deriving DecidableEq, Repr

/-- Step 3 of the consent branch: add the consented scopes, claims and
resource scopes from `prompt.details` to the Grant.  Each missing set
defaults to empty when absent; the scope list is space-joined before being
handed to the Grant, and each resource indicator's scope list likewise. -/
def mergeDetails (g : Grant) (d : Interaction) : Grant :=
  let g1 := g.addOIDCScope (joinSpace (d.missingOIDCScope.getD []))
  let g2 := g1.addOIDCClaims (d.missingOIDCClaims.getD [])
  (d.missingResourceScopes.getD []).foldl
    (fun g p => g.addResourceScope p.1 (joinSpace p.2)) g2

/-- The Grant-operation trace of the consent branch's merge-and-save step. -/
def mergeOps (d : Interaction) : List GrantOp :=
  [GrantOp.addScope (joinSpace (d.missingOIDCScope.getD []))]
    ++ [GrantOp.addClaims (d.missingOIDCClaims.getD [])]
    ++ (d.missingResourceScopes.getD []).map
        (fun p => GrantOp.addResourceScope p.1 (joinSpace p.2))
    ++ [GrantOp.save]

/-! ## URLs and the redirect finalizer -/

/-- The parts of a URL this layer inspects: scheme, host, and the
path-with-query remainder. -/
structure URLv where
  scheme : String
  host : String
  pathQuery : String
deriving DecidableEq, Repr

/-- Does the string start with `/` (a relative path instruction)? -/
def sIsRelPath (s : String) : Bool :=
  match s.data with
  | '/' :: _ => true
  | _ => false

/-- Split a character list at the first occurrence of the separator `sep`:
`some (before, after)` or `none` when `sep` does not occur. -/
def breakOnSep (sep : List Char) : List Char → Option (List Char × List Char)
  | [] => none
  | c :: cs =>
    if (c :: cs).take sep.length = sep then some ([], (c :: cs).drop sep.length)
    else
      match breakOnSep sep cs with
      | some (pre, post) => some (c :: pre, post)
      | none => none

/-- The characters of the scheme separator `://`. -/
def sepChars : List Char := [':', '/', '/']

/-- Modelled from the spec: the WHATWG `new URL(s, base)` constructor used at
the redirect-finalize step is a platform builtin (not in `src/`).  Per §4.4 a
relative instruction is resolved against the base origin; an absolute
`scheme://host/pathQuery` instruction parses on its own; a malformed
instruction (empty scheme or host) fails to parse. -/
def resolveURL (s : String) (base : URLv) : Option URLv :=
  if sIsRelPath s then some ⟨base.scheme, base.host, s⟩
  else
    match breakOnSep sepChars s.data with
    | none => some ⟨base.scheme, base.host, "/" ++ s⟩
    | some (sch, rest) =>
      if sch = [] ∨ rest = [] then none
      else
        let hp := rest.span (fun c => c ≠ '/')
        if hp.1 = [] then none
        else some ⟨String.mk sch, String.mk hp.1,
                   if hp.2 = [] then "/" else String.mk hp.2⟩

/-- An HTTP response as the handler produces it: a JSON error body with a
status, or a redirect. -/
inductive HttpResponse where
  | json (status : Nat) (error errorDescription : String)
  | redirect (status : Nat) (url : URLv)
deriving DecidableEq, Repr

/-- The tail of the handler shared by every branch: a falsy redirect
instruction is a 500, a parse failure is a 500, otherwise the resolved URL is
passed through `correctOIDCUrl` and returned as a 303 redirect. -/
def finalizeRedirect (correct : URLv → URLv) (origin : URLv)
    (instr : Option String) : HttpResponse :=
  match instr with
  | none => .json 500 "server_error" "Internal redirect URL is missing"
  | some s =>
    if s = "" then .json 500 "server_error" "Internal redirect URL is missing"
    else
      match resolveURL s origin with
      | none => .json 500 "server_error" "Invalid redirect URL from provider"
      | some u => .redirect 303 (correct u)

/-! ## The consent POST handler -/

/-- The interaction result handed to the engine's finalize call. -/
inductive InteractionResult where
  | login (accountId : String) (remember : Bool)
  | consent (grantId : String)
  | loginConsent (grantId : String) (accountId : String) (remember : Bool)
  | denied (error errorDescription : String)
deriving DecidableEq, Repr

/-- The denial result the reject branch finalizes with. -/
def deniedResult : InteractionResult :=
  .denied "access_denied" "User denied the authorization request"

/-- What one handler run did besides its response: the Grant operations
performed, the results passed to the engine's finalize call, and whether the
auth context was consulted. -/
structure Trace where
  grantOps : List GrantOp
  finalized : List InteractionResult
  authChecked : Bool
deriving DecidableEq, Repr

/-- The handler's collaborators: interaction lookup (`none` is
`InteractionNotFound`), the auth context's user id, the Grant store, the id
`grant.save()` returns, the engine's finalize call returning a redirect
instruction (`none` is `undefined`), the request origin, and
`correctOIDCUrl` applied to the request. -/
structure Env where
  interactions : String → Option Interaction
  userId : Option String
  store : String → Option Grant
  save : Grant → String
  engine : String → InteractionResult → Option String
  origin : URLv
  correct : URLv → URLv

/-- The consent-submission `POST` handler of
`src/packages/openapi/src/helpers/message.ts`, returning the HTTP response
together with the trace of what it did. -/
def handleConsentPost (env : Env) (consent uid : String) : HttpResponse × Trace :=
  match env.interactions uid with
  | none =>
    (.json 400 "invalid_request"
      "Authorization session expired or invalid, please restart the authorization flow",
     ⟨[], [], false⟩)
  | some details =>
    if consent = "accept" then
      match env.userId with
      | none => (.json 401 "not_authenticated" "User is not authenticated", ⟨[], [], true⟩)
      | some userId =>
        if userId = "" then
          (.json 401 "not_authenticated" "User is not authenticated", ⟨[], [], true⟩)
        else if details.promptName = "login" then
          (finalizeRedirect env.correct env.origin
            (env.engine uid (.login userId true)),
           ⟨[], [.login userId true], true⟩)
        else
          let p := findOrCreateGrants env.store userId details.clientId details.grantId
          let newGrantId := env.save (mergeDetails p.1 details)
          let result :=
            match details.sessionAccountId with
            | some sid =>
              if sid ≠ "" ∧ sid ≠ userId then
                InteractionResult.loginConsent newGrantId userId true
              else InteractionResult.consent newGrantId
            | none => InteractionResult.consent newGrantId
          (finalizeRedirect env.correct env.origin (env.engine uid result),
           ⟨p.2 ++ mergeOps details, [result], true⟩)
    else
      (finalizeRedirect env.correct env.origin (env.engine uid deniedResult),
       ⟨[], [deniedResult], false⟩)

/-- Look a resource indicator up in the resource-scope map. -/
def rsGet : List (String × List String) → String → Option (List String)
  | [], _ => none
  | (i, s) :: rest, ind => if i = ind then some s else rsGet rest ind

/-- The map binds indicator `i` to a scope set containing every token of `xs`. -/
def rsHasAll (m : List (String × List String)) (i : String) (xs : List String) : Prop :=
  ∃ s, rsGet m i = some s ∧ ∀ a ∈ xs, a ∈ s

/-- The merge step applied to a whole resource-scope entry list. -/
def rsApply (m : List (String × List String)) (es : List (String × List String)) :
    List (String × List String) :=
  es.foldl (fun m p => rsUpdate m p.1 (tokens (joinSpace p.2))) m

/-- The grant id the consent branch persists: the saved merge of the
reconciled Grant with the interaction's missing sets. -/
def consentGrantId (env : Env) (details : Interaction) (userId : String) : String :=
  env.save (mergeDetails
    (findOrCreateGrants env.store userId details.clientId details.grantId).1 details)

/-! ## Lemmas about the set-union primitives -/

theorem setUnion_nil (l : List String) : setUnion l [] = l := rfl

theorem setUnion_cons (l : List String) (x : String) (xs : List String) :
    setUnion l (x :: xs) = setUnion (setInsert l x) xs := rfl

theorem mem_setInsert_of_mem (l : List String) (x a : String) (h : a ∈ l) :
    a ∈ setInsert l x := by
  unfold setInsert
  split
  · exact h
  · exact List.mem_append_left _ h

theorem mem_setInsert_self (l : List String) (x : String) : x ∈ setInsert l x := by
  unfold setInsert
  split
  · assumption
  · exact List.mem_append_right _ (List.mem_singleton.mpr rfl)

theorem setInsert_eq_of_mem (l : List String) (x : String) (h : x ∈ l) :
    setInsert l x = l := by
  unfold setInsert
  exact if_pos h

theorem mem_setUnion_left (xs : List String) (l : List String) (a : String)
    (h : a ∈ l) : a ∈ setUnion l xs := by
  induction xs generalizing l with
  | nil => simpa [setUnion_nil] using h
  | cons x xs ih =>
    rw [setUnion_cons]
    exact ih _ (mem_setInsert_of_mem _ _ _ h)

theorem mem_setUnion_right (xs : List String) (l : List String) (a : String)
    (h : a ∈ xs) : a ∈ setUnion l xs := by
  induction xs generalizing l with
  | nil => cases h
  | cons x xs ih =>
    rw [setUnion_cons]
    rcases List.mem_cons.mp h with h1 | h2
    · subst h1
      exact mem_setUnion_left _ _ _ (mem_setInsert_self _ _)
    · exact ih _ h2

theorem setUnion_eq_of_subset (xs : List String) (l : List String)
    (h : ∀ a ∈ xs, a ∈ l) : setUnion l xs = l := by
  induction xs generalizing l with
  | nil => rfl
  | cons x xs ih =>
    rw [setUnion_cons, setInsert_eq_of_mem _ _ (h x (List.mem_cons_self _ _))]
    exact ih _ (fun a ha => h a (List.mem_cons_of_mem _ ha))

theorem setUnion_idem (l xs : List String) :
    setUnion (setUnion l xs) xs = setUnion l xs :=
  setUnion_eq_of_subset _ _ (fun _a ha => mem_setUnion_right _ _ _ ha)

theorem setInsert_nodup (l : List String) (x : String) (h : l.Nodup) :
    (setInsert l x).Nodup := by
  unfold setInsert
  split
  · exact h
  · next hx =>
    simp only [List.nodup_append, List.nodup_cons, List.not_mem_nil, not_false_iff,
      List.nodup_nil, and_true, true_and]
    exact ⟨h, fun a ha => by simp only [List.mem_singleton]; rintro rfl; exact hx ha⟩

theorem setUnion_nodup (xs : List String) (l : List String) (h : l.Nodup) :
    (setUnion l xs).Nodup := by
  induction xs generalizing l with
  | nil => exact h
  | cons x xs ih =>
    rw [setUnion_cons]
    exact ih _ (setInsert_nodup _ _ h)

/-! ## Lemmas about the resource-scope map -/

theorem rsApply_nil (m : List (String × List String)) : rsApply m [] = m := rfl

theorem rsApply_cons (m : List (String × List String)) (e : String × List String)
    (es : List (String × List String)) :
    rsApply m (e :: es) = rsApply (rsUpdate m e.1 (tokens (joinSpace e.2))) es := rfl

theorem rsHasAll_rsUpdate (m : List (String × List String)) (i : String)
    (xs : List String) : rsHasAll (rsUpdate m i xs) i xs := by
  induction m with
  | nil =>
    exact ⟨setUnion [] xs, by simp [rsUpdate, rsGet], fun a ha => mem_setUnion_right _ _ _ ha⟩
  | cons e rest ih =>
    obtain ⟨j, s⟩ := e
    by_cases hj : j = i
    · subst hj
      exact ⟨setUnion s xs, by simp [rsUpdate, rsGet],
        fun a ha => mem_setUnion_right _ _ _ ha⟩
    · obtain ⟨t, hget, hsub⟩ := ih
      exact ⟨t, by simpa [rsUpdate, rsGet, hj] using hget, hsub⟩

theorem rsHasAll_mono (m : List (String × List String)) (i : String) (xs : List String)
    (j : String) (ys : List String) (h : rsHasAll m i xs) :
    rsHasAll (rsUpdate m j ys) i xs := by
  induction m with
  | nil => obtain ⟨s, hget, _⟩ := h; cases hget
  | cons e rest ih =>
    obtain ⟨k, s⟩ := e
    obtain ⟨t, hget, hsub⟩ := h
    by_cases hk : k = j
    · subst hk
      by_cases hi : k = i
      · subst hi
        have ht : s = t := by simpa [rsGet] using hget
        subst ht
        exact ⟨setUnion s ys, by simp [rsUpdate, rsGet],
          fun a ha => mem_setUnion_left _ _ _ (hsub a ha)⟩
      · exact ⟨t, by simpa [rsUpdate, rsGet, hi] using hget, hsub⟩
    · by_cases hi : k = i
      · subst hi
        have ht : s = t := by simpa [rsGet] using hget
        subst ht
        exact ⟨s, by simp [rsUpdate, rsGet, hk], hsub⟩
      · have hget' : rsGet rest i = some t := by simpa [rsGet, hi] using hget
        obtain ⟨t', hget'', hsub'⟩ := ih ⟨t, hget', hsub⟩
        exact ⟨t', by simpa [rsUpdate, rsGet, hk, hi] using hget'', hsub'⟩

theorem rsUpdate_eq_of_hasAll (m : List (String × List String)) (i : String)
    (xs : List String) (h : rsHasAll m i xs) : rsUpdate m i xs = m := by
  induction m with
  | nil => obtain ⟨s, hget, _⟩ := h; cases hget
  | cons e rest ih =>
    obtain ⟨k, s⟩ := e
    obtain ⟨t, hget, hsub⟩ := h
    by_cases hk : k = i
    · subst hk
      have ht : s = t := by simpa [rsGet] using hget
      subst ht
      simp [rsUpdate, setUnion_eq_of_subset _ _ hsub]
    · have hget' : rsGet rest i = some t := by simpa [rsGet, hk] using hget
      simp only [rsUpdate, if_neg hk]
      rw [ih ⟨t, hget', hsub⟩]

theorem rsHasAll_rsApply_of_hasAll (es : List (String × List String))
    (m : List (String × List String)) (i : String) (xs : List String)
    (h : rsHasAll m i xs) : rsHasAll (rsApply m es) i xs := by
  induction es generalizing m with
  | nil => exact h
  | cons e es ih =>
    rw [rsApply_cons]
    exact ih _ (rsHasAll_mono _ _ _ _ _ h)

theorem rsHasAll_rsApply (es : List (String × List String))
    (m : List (String × List String)) (p : String × List String) (hp : p ∈ es) :
    rsHasAll (rsApply m es) p.1 (tokens (joinSpace p.2)) := by
  induction es generalizing m with
  | nil => cases hp
  | cons e es ih =>
    rw [rsApply_cons]
    rcases List.mem_cons.mp hp with h1 | h2
    · subst h1
      exact rsHasAll_rsApply_of_hasAll _ _ _ _ (rsHasAll_rsUpdate _ _ _)
    · exact ih _ h2

theorem rsApply_eq_of_hasAll (es : List (String × List String))
    (m : List (String × List String))
    (h : ∀ p ∈ es, rsHasAll m p.1 (tokens (joinSpace p.2))) : rsApply m es = m := by
  induction es with
  | nil => rfl
  | cons e es ih =>
    rw [rsApply_cons, rsUpdate_eq_of_hasAll _ _ _ (h e (List.mem_cons_self _ _))]
    exact ih (fun p hp => h p (List.mem_cons_of_mem _ hp))

theorem rsApply_idem (m : List (String × List String))
    (es : List (String × List String)) : rsApply (rsApply m es) es = rsApply m es :=
  rsApply_eq_of_hasAll _ _ (fun _p hp => rsHasAll_rsApply _ _ _ hp)

theorem rsUpdate_nodup (m : List (String × List String)) (i : String) (xs : List String)
    (h : ∀ p ∈ m, p.2.Nodup) : ∀ p ∈ rsUpdate m i xs, p.2.Nodup := by
  induction m with
  | nil =>
    intro p hp
    simp only [rsUpdate, List.mem_singleton] at hp
    subst hp
    exact setUnion_nodup _ _ List.nodup_nil
  | cons e rest ih =>
    obtain ⟨k, s⟩ := e
    intro p hp
    by_cases hk : k = i
    · simp only [rsUpdate, if_pos hk, List.mem_cons] at hp
      rcases hp with h1 | h2
      · subst h1
        exact setUnion_nodup _ _ (h (k, s) (List.mem_cons_self _ _))
      · exact h p (List.mem_cons_of_mem _ h2)
    · simp only [rsUpdate, if_neg hk, List.mem_cons] at hp
      rcases hp with h1 | h2
      · subst h1
        exact h (k, s) (List.mem_cons_self _ _)
      · exact ih (fun q hq => h q (List.mem_cons_of_mem _ hq)) p h2

theorem rsApply_nodup (es : List (String × List String))
    (m : List (String × List String)) (h : ∀ p ∈ m, p.2.Nodup) :
    ∀ p ∈ rsApply m es, p.2.Nodup := by
  induction es generalizing m with
  | nil => exact h
  | cons e es ih =>
    rw [rsApply_cons]
    exact ih _ (rsUpdate_nodup _ _ _ h)

/-! ## The merge step in closed form -/

theorem foldl_addResourceScope (es : List (String × List String)) (g : Grant) :
    es.foldl (fun g p => g.addResourceScope p.1 (joinSpace p.2)) g
      = { g with resourceScopes := rsApply g.resourceScopes es } := by
  induction es generalizing g with
  | nil => rfl
  | cons e es ih =>
    simp only [List.foldl_cons]
    rw [ih, rsApply_cons]
    rfl

theorem mergeDetails_eq (g : Grant) (d : Interaction) :
    mergeDetails g d =
      ⟨g.accountId, g.clientId,
       setUnion g.oidcScopes (tokens (joinSpace (d.missingOIDCScope.getD []))),
       setUnion g.oidcClaims (d.missingOIDCClaims.getD []),
       rsApply g.resourceScopes (d.missingResourceScopes.getD [])⟩ := by
  unfold mergeDetails
  rw [foldl_addResourceScope]
  rfl

/-- C3: for every valid interaction with prompt `consent` and fixed
`prompt.details`, performing the accept submission's merge step twice on the
same Grant yields exactly the same Grant as performing it once, and merging
is set-union: starting from duplicate-free scope / claim / resource-scope
sets, the merged sets are duplicate-free. -/
theorem c3_merge_idempotent_set_union (g : Grant) (d : Interaction)
    (hs : g.oidcScopes.Nodup) (hc : g.oidcClaims.Nodup)
    (hr : ∀ p ∈ g.resourceScopes, p.2.Nodup) :
    mergeDetails (mergeDetails g d) d = mergeDetails g d
    ∧ (mergeDetails g d).oidcScopes.Nodup
    ∧ (mergeDetails g d).oidcClaims.Nodup
    ∧ ∀ p ∈ (mergeDetails g d).resourceScopes, p.2.Nodup := by
  refine ⟨?_, ?_, ?_, ?_⟩
  · rw [mergeDetails_eq g d, mergeDetails_eq]
    simp only [Grant.mk.injEq]
    exact ⟨trivial, trivial, setUnion_idem _ _, setUnion_idem _ _, rsApply_idem _ _⟩
  · rw [mergeDetails_eq]
    exact setUnion_nodup _ _ hs
  · rw [mergeDetails_eq]
    exact setUnion_nodup _ _ hc
  · rw [mergeDetails_eq]
    exact rsApply_nodup _ _ hr

/-- Witness for C3 at a concrete Grant and interaction details. -/
theorem c3_merge_idempotent_set_union_witness :
    mergeDetails
        (mergeDetails ⟨some "acctB", "cli", ["openid"], [], [("res1", ["read"])]⟩
          ⟨"consent", "cli", none, none, some ["openid", "profile"], some ["email"],
           some [("res1", ["read", "write"]), ("res2", ["list"])]⟩)
        ⟨"consent", "cli", none, none, some ["openid", "profile"], some ["email"],
         some [("res1", ["read", "write"]), ("res2", ["list"])]⟩
      = mergeDetails ⟨some "acctB", "cli", ["openid"], [], [("res1", ["read"])]⟩
          ⟨"consent", "cli", none, none, some ["openid", "profile"], some ["email"],
           some [("res1", ["read", "write"]), ("res2", ["list"])]⟩ :=
  (c3_merge_idempotent_set_union
    ⟨some "acctB", "cli", ["openid"], [], [("res1", ["read"])]⟩
    ⟨"consent", "cli", none, none, some ["openid", "profile"], some ["email"],
     some [("res1", ["read", "write"]), ("res2", ["list"])]⟩
    (by decide) (by decide) (by decide)).1

/-! ## Claims about findOrCreateGrants -/

/-- C1: when the Grant loaded by `existingGrantId` has an owning account (a
truthy `accountId`) different from the caller's `accountId`, it is discarded
and a fresh Grant built from exactly `(accountId, clientId)` is returned; and
whatever the arguments, a Grant returned by `findOrCreateGrants` that has an
owning account has the caller's `accountId` — a loaded Grant is never handed
back under a different account. -/
theorem c1_grant_never_reassigned (store : String → Option Grant)
    (accountId clientId : String) :
    (∀ gid g, gid ≠ "" → store gid = some g → optTruthy g.accountId = true →
        g.accountId ≠ some accountId →
        findOrCreateGrants store accountId clientId (some gid)
          = (⟨some accountId, clientId, [], [], []⟩,
             [GrantOp.find gid, GrantOp.create accountId clientId]))
    ∧ ∀ egid,
        optTruthy (findOrCreateGrants store accountId clientId egid).1.accountId = true →
        (findOrCreateGrants store accountId clientId egid).1.accountId = some accountId := by
  constructor
  · intro gid g hgid hstore htruthy hne
    simp [findOrCreateGrants, hgid, hstore, htruthy, hne]
  · intro egid htruthy
    cases egid with
    | none => rfl
    | some gid =>
      by_cases hgid : gid = ""
      · simp [findOrCreateGrants, hgid]
      · cases hstore : store gid with
        | none => simp [findOrCreateGrants, hgid, hstore]
        | some g =>
          by_cases hcond : optTruthy g.accountId = true ∧ g.accountId ≠ some accountId
          · simp [findOrCreateGrants, hgid, hstore, hcond.1, hcond.2]
          · simp only [findOrCreateGrants, hstore, if_neg hgid, if_neg hcond] at htruthy ⊢
            rcases not_and_or.mp hcond with h1 | h2
            · exact absurd htruthy h1
            · exact not_not.mp h2

/-- Witness for C1: account `acctB` submits with a grant id owned by `acctA`;
the loaded Grant is discarded and a fresh `(acctB, cli)` Grant returned. -/
theorem c1_grant_never_reassigned_witness :
    findOrCreateGrants
        (fun gid => if gid = "g1" then some ⟨some "acctA", "cli", [], [], []⟩ else none)
        "acctB" "cli" (some "g1")
      = (⟨some "acctB", "cli", [], [], []⟩,
         [GrantOp.find "g1", GrantOp.create "acctB" "cli"]) :=
  (c1_grant_never_reassigned _ "acctB" "cli").1 "g1" ⟨some "acctA", "cli", [], [], []⟩
    (by decide) (by decide) (by decide) (by decide)

/-- C10: the account-mismatch discard in `findOrCreateGrants` fires only for a
loaded Grant whose `accountId` is truthy; a Grant whose `accountId` is absent
or the empty string skips the check and is returned for reuse as-is. -/
theorem c10_untruthy_account_grant_reused (store : String → Option Grant)
    (accountId clientId gid : String) (g : Grant)
    (hgid : gid ≠ "") (hstore : store gid = some g)
    (huntruthy : optTruthy g.accountId = false) :
    findOrCreateGrants store accountId clientId (some gid) = (g, [GrantOp.find gid]) := by
  simp [findOrCreateGrants, hgid, hstore, huntruthy]

/-- Witness for C10: a stored Grant with empty-string `accountId` is reused
unchanged by a call authenticated as `acctB`. -/
theorem c10_untruthy_account_grant_reused_witness :
    findOrCreateGrants
        (fun gid => if gid = "g1" then some ⟨some "", "cli", ["openid"], [], []⟩ else none)
        "acctB" "cli" (some "g1")
      = (⟨some "", "cli", ["openid"], [], []⟩, [GrantOp.find "g1"]) :=
  c10_untruthy_account_grant_reused _ "acctB" "cli" "g1" ⟨some "", "cli", ["openid"], [], []⟩
    (by decide) (by decide) (by decide)

/-! ## Claims about the consent POST handler -/

/-- C5: a submission whose `uid` the engine does not know yields HTTP 400
with code `invalid_request`, with no auth lookup, no Grant operation and no
finalize call. -/
theorem c5_unknown_uid_invalid_request (env : Env) (consent uid : String)
    (h : env.interactions uid = none) :
    handleConsentPost env consent uid =
      (.json 400 "invalid_request"
        "Authorization session expired or invalid, please restart the authorization flow",
       ⟨[], [], false⟩) := by
  simp [handleConsentPost, h]

/-- Witness for C5: an empty interaction table rejects `uid = "u1"`. -/
theorem c5_unknown_uid_invalid_request_witness :
    handleConsentPost
        ⟨fun _ => none, none, fun _ => none, fun _ => "", fun _ _ => none,
         ⟨"https", "app.example", "/"⟩, id⟩ "accept" "u1" =
      (.json 400 "invalid_request"
        "Authorization session expired or invalid, please restart the authorization flow",
       ⟨[], [], false⟩) :=
  c5_unknown_uid_invalid_request _ "accept" "u1" rfl

/-- C6: an accept submission with no authenticated user (auth context
resolves `undefined` or an empty user id) yields HTTP 401 with code
`not_authenticated`, whatever the prompt, with no Grant operation and no
finalize call. -/
theorem c6_unauthenticated_401 (env : Env) (uid : String) (details : Interaction)
    (hdet : env.interactions uid = some details)
    (hauth : env.userId = none ∨ env.userId = some "") :
    handleConsentPost env "accept" uid =
      (.json 401 "not_authenticated" "User is not authenticated", ⟨[], [], true⟩) := by
  rcases hauth with h | h <;> simp [handleConsentPost, hdet, h]

/-- Witness for C6 at a concrete consent-prompt interaction with no user. -/
theorem c6_unauthenticated_401_witness :
    handleConsentPost
        ⟨fun u => if u = "u1" then
            some ⟨"consent", "cli", none, none, none, none, none⟩ else none,
         none, fun _ => none, fun _ => "", fun _ _ => none,
         ⟨"https", "app.example", "/"⟩, id⟩ "accept" "u1" =
      (.json 401 "not_authenticated" "User is not authenticated", ⟨[], [], true⟩) :=
  c6_unauthenticated_401 _ "u1" ⟨"consent", "cli", none, none, none, none, none⟩
    (by decide) (Or.inl rfl)

/-- C8: an accepted submission on a `login` prompt with an authenticated user
finalizes exactly `{login: {accountId: userId, remember: true}}` and performs
no Grant operation. -/
theorem c8_login_prompt_no_grant (env : Env) (uid : String) (details : Interaction)
    (userId : String) (hdet : env.interactions uid = some details)
    (huser : env.userId = some userId) (hne : userId ≠ "")
    (hprompt : details.promptName = "login") :
    (handleConsentPost env "accept" uid).2.grantOps = []
    ∧ (handleConsentPost env "accept" uid).2.finalized = [.login userId true] := by
  constructor <;> simp [handleConsentPost, hdet, huser, hne, hprompt]

/-- Witness for C8 at a concrete login-prompt interaction. -/
theorem c8_login_prompt_no_grant_witness :
    (handleConsentPost
        ⟨fun u => if u = "u1" then
            some ⟨"login", "cli", none, none, none, none, none⟩ else none,
         some "acct7", fun _ => none, fun _ => "jti1", fun _ _ => some "/cb",
         ⟨"https", "app.example", "/"⟩, id⟩ "accept" "u1").2.grantOps = []
    ∧ (handleConsentPost
        ⟨fun u => if u = "u1" then
            some ⟨"login", "cli", none, none, none, none, none⟩ else none,
         some "acct7", fun _ => none, fun _ => "jti1", fun _ _ => some "/cb",
         ⟨"https", "app.example", "/"⟩, id⟩ "accept" "u1").2.finalized =
      [.login "acct7" true] :=
  c8_login_prompt_no_grant _ "u1" ⟨"login", "cli", none, none, none, none, none⟩
    "acct7" (by decide) rfl (by decide) rfl

/-- C4: a submission whose consent field is anything but `"accept"` performs
no Grant operation and no auth lookup, finalizes the interaction with the
`access_denied` denial result, and — when the engine returns a usable
redirect instruction — responds with a 303 redirect, not an HTTP error. -/
theorem c4_reject_access_denied (env : Env) (consent uid : String)
    (details : Interaction) (hc : consent ≠ "accept")
    (hdet : env.interactions uid = some details) :
    (handleConsentPost env consent uid).2.grantOps = []
    ∧ (handleConsentPost env consent uid).2.authChecked = false
    ∧ (handleConsentPost env consent uid).2.finalized = [deniedResult]
    ∧ ∀ s u, env.engine uid deniedResult = some s → s ≠ "" →
        resolveURL s env.origin = some u →
        (handleConsentPost env consent uid).1 = .redirect 303 (env.correct u) := by
  refine ⟨?_, ?_, ?_, ?_⟩
  · simp [handleConsentPost, hdet, hc]
  · simp [handleConsentPost, hdet, hc]
  · simp [handleConsentPost, hdet, hc]
  · intro s u hs hsne hu
    simp [handleConsentPost, hdet, hc, finalizeRedirect, hs, hsne, hu]

/-- Witness for C4: rejecting with `consent = "deny"` at a concrete
environment redirects 303 to the engine's denial redirect. -/
theorem c4_reject_access_denied_witness :
    (handleConsentPost
        ⟨fun u => if u = "u1" then
            some ⟨"consent", "cli", none, none, none, none, none⟩ else none,
         some "acct7", fun _ => none, fun _ => "jti1",
         fun _ _ => some "/cb?error=access_denied",
         ⟨"https", "app.example", "/"⟩, id⟩ "deny" "u1").2.grantOps = []
    ∧ (handleConsentPost
        ⟨fun u => if u = "u1" then
            some ⟨"consent", "cli", none, none, none, none, none⟩ else none,
         some "acct7", fun _ => none, fun _ => "jti1",
         fun _ _ => some "/cb?error=access_denied",
         ⟨"https", "app.example", "/"⟩, id⟩ "deny" "u1").1 =
      .redirect 303 ⟨"https", "app.example", "/cb?error=access_denied"⟩ := by
  have h := c4_reject_access_denied
    ⟨fun u => if u = "u1" then
        some ⟨"consent", "cli", none, none, none, none, none⟩ else none,
     some "acct7", fun _ => none, fun _ => "jti1",
     fun _ _ => some "/cb?error=access_denied",
     ⟨"https", "app.example", "/"⟩, id⟩ "deny" "u1"
    ⟨"consent", "cli", none, none, none, none, none⟩ (by decide) (by decide)
  exact ⟨h.1, by
    have h4 := h.2.2.2 "/cb?error=access_denied"
      ⟨"https", "app.example", "/cb?error=access_denied"⟩ rfl (by decide) (by decide)
    simpa using h4⟩

/-- C2: in the accepted consent-prompt path, the finalized result is the
combined `{consent, login}` form exactly when the interaction session's
`accountId` is truthy and differs from the authenticated user's id; it is the
plain `{consent}` form when the session account is absent, empty or equal;
and these two forms are the only consent-accept results ever produced. -/
theorem c2_account_resync_result (env : Env) (uid : String) (details : Interaction)
    (userId : String) (hdet : env.interactions uid = some details)
    (huser : env.userId = some userId) (hne : userId ≠ "")
    (hprompt : details.promptName ≠ "login") :
    (∀ sid, details.sessionAccountId = some sid → sid ≠ "" → sid ≠ userId →
        (handleConsentPost env "accept" uid).2.finalized =
          [.loginConsent (consentGrantId env details userId) userId true])
    ∧ ((details.sessionAccountId = none ∨ details.sessionAccountId = some ""
          ∨ details.sessionAccountId = some userId) →
        (handleConsentPost env "accept" uid).2.finalized =
          [.consent (consentGrantId env details userId)])
    ∧ ((handleConsentPost env "accept" uid).2.finalized =
          [.loginConsent (consentGrantId env details userId) userId true]
      ∨ (handleConsentPost env "accept" uid).2.finalized =
          [.consent (consentGrantId env details userId)]) := by
  refine ⟨?_, ?_, ?_⟩
  · intro sid hsid hsne hsdiff
    simp [handleConsentPost, hdet, huser, hne, hprompt, hsid, hsne, hsdiff, consentGrantId]
  · rintro (h | h | h) <;>
      simp [handleConsentPost, hdet, huser, hne, hprompt, h, consentGrantId]
  · cases hsid : details.sessionAccountId with
    | none =>
      right
      simp [handleConsentPost, hdet, huser, hne, hprompt, hsid, consentGrantId]
    | some sid =>
      by_cases hcond : sid ≠ "" ∧ sid ≠ userId
      · left
        simp [handleConsentPost, hdet, huser, hne, hprompt, hsid, hcond.1, hcond.2,
          consentGrantId]
      · right
        simp only [handleConsentPost, hdet, huser, hne, hprompt, hsid, if_neg hcond,
          consentGrantId]
        simp [hne, hprompt]

/-- Witness for C2: session account `acctA` differs from authenticated
`acctB`, so the finalized result is the combined login+consent form. -/
theorem c2_account_resync_result_witness :
    (handleConsentPost
        ⟨fun u => if u = "u1" then
            some ⟨"consent", "cli", none, some "acctA", some ["openid"], none, none⟩ else none,
         some "acctB", fun _ => none, fun _ => "jti9", fun _ _ => some "/cb",
         ⟨"https", "app.example", "/"⟩, id⟩ "accept" "u1").2.finalized =
      [.loginConsent "jti9" "acctB" true] := by
  have h := (c2_account_resync_result
    ⟨fun u => if u = "u1" then
        some ⟨"consent", "cli", none, some "acctA", some ["openid"], none, none⟩ else none,
     some "acctB", fun _ => none, fun _ => "jti9", fun _ _ => some "/cb",
     ⟨"https", "app.example", "/"⟩, id⟩ "u1"
    ⟨"consent", "cli", none, some "acctA", some ["openid"], none, none⟩ "acctB"
    (by decide) rfl (by decide) (by decide)).1 "acctA" rfl (by decide) (by decide)
  exact h.trans (by decide)

/-- C9: an accepted, authenticated submission whose prompt name is anything
other than `login` — including names that are neither `login` nor `consent` —
runs the full consent path: Grant reconciliation, merge, save, and a consent
or combined-resync result. -/
theorem c9_non_login_prompt_consent_path (env : Env) (uid : String)
    (details : Interaction) (userId : String)
    (hdet : env.interactions uid = some details)
    (huser : env.userId = some userId) (hne : userId ≠ "")
    (hprompt : details.promptName ≠ "login") :
    (handleConsentPost env "accept" uid).2.grantOps =
      (findOrCreateGrants env.store userId details.clientId details.grantId).2
        ++ mergeOps details
    ∧ ((handleConsentPost env "accept" uid).2.finalized =
          [.loginConsent (consentGrantId env details userId) userId true]
      ∨ (handleConsentPost env "accept" uid).2.finalized =
          [.consent (consentGrantId env details userId)]) := by
  refine ⟨?_, ?_⟩
  · simp [handleConsentPost, hdet, huser, hne, hprompt]
  · cases hsid : details.sessionAccountId with
    | none =>
      right
      simp [handleConsentPost, hdet, huser, hne, hprompt, hsid, consentGrantId]
    | some sid =>
      by_cases hcond : sid ≠ "" ∧ sid ≠ userId
      · left
        simp [handleConsentPost, hdet, huser, hne, hprompt, hsid, hcond.1, hcond.2,
          consentGrantId]
      · right
        simp only [handleConsentPost, hdet, huser, hne, hprompt, hsid, if_neg hcond,
          consentGrantId]
        simp [hne, hprompt]

/-- Witness for C9 at prompt name `"weird"`, which is neither `login` nor
`consent`: the consent path still runs (create, merge, save). -/
theorem c9_non_login_prompt_consent_path_witness :
    (handleConsentPost
        ⟨fun u => if u = "u1" then
            some ⟨"weird", "cli", none, none, some ["openid"], none, none⟩ else none,
         some "acct7", fun _ => none, fun _ => "jti1", fun _ _ => some "/cb",
         ⟨"https", "app.example", "/"⟩, id⟩ "accept" "u1").2.grantOps =
      [GrantOp.create "acct7" "cli", GrantOp.addScope "openid",
       GrantOp.addClaims [], GrantOp.save] := by
  have h := c9_non_login_prompt_consent_path
    ⟨fun u => if u = "u1" then
        some ⟨"weird", "cli", none, none, some ["openid"], none, none⟩ else none,
     some "acct7", fun _ => none, fun _ => "jti1", fun _ _ => some "/cb",
     ⟨"https", "app.example", "/"⟩, id⟩ "u1"
    ⟨"weird", "cli", none, none, some ["openid"], none, none⟩ "acct7"
    (by decide) rfl (by decide) (by decide)
  exact h.1.trans (by decide)

/-- C7: a relative redirect instruction is resolved against the request
origin before origin-correction is applied; an absolute instruction parses
independently of the origin, its path and query taken verbatim from the
instruction, with only origin-correction applied; an instruction that fails
to parse yields HTTP 500 `server_error` instead of a redirect. -/
theorem c7_redirect_finalizer (correct : URLv → URLv) (origin : URLv) (s : String) :
    (sIsRelPath s = true →
        resolveURL s origin = some ⟨origin.scheme, origin.host, s⟩
        ∧ finalizeRedirect correct origin (some s) =
            .redirect 303 (correct ⟨origin.scheme, origin.host, s⟩))
    ∧ (∀ sch rest hst pq, sIsRelPath s = false →
        breakOnSep sepChars s.data = some (sch, rest) →
        sch ≠ [] → rest ≠ [] →
        rest.span (fun c => c ≠ '/') = (hst, pq) → hst ≠ [] →
        resolveURL s origin =
          some ⟨String.mk sch, String.mk hst, if pq = [] then "/" else String.mk pq⟩
        ∧ (∀ origin2, resolveURL s origin2 = resolveURL s origin)
        ∧ finalizeRedirect correct origin (some s) =
            .redirect 303 (correct ⟨String.mk sch, String.mk hst,
              if pq = [] then "/" else String.mk pq⟩))
    ∧ (s ≠ "" → resolveURL s origin = none →
        finalizeRedirect correct origin (some s) =
          .json 500 "server_error" "Invalid redirect URL from provider") := by
  refine ⟨?_, ?_, ?_⟩
  · intro hrel
    have hsne : s ≠ "" := by
      intro he
      subst he
      exact Bool.noConfusion (hrel : false = true)
    have hres : resolveURL s origin = some ⟨origin.scheme, origin.host, s⟩ := by
      simp [resolveURL, hrel]
    exact ⟨hres, by simp [finalizeRedirect, hsne, hres]⟩
  · intro sch rest hst pq hrel hbreak hsch hrest hspan hh
    have hsne : s ≠ "" := by
      intro he
      subst he
      exact Option.noConfusion (hbreak : (none : Option (List Char × List Char)) = _)
    have key : ∀ o : URLv, resolveURL s o =
        some ⟨String.mk sch, String.mk hst, if pq = [] then "/" else String.mk pq⟩ := by
      intro o
      simp only [resolveURL, hrel, Bool.false_eq_true, if_false, hbreak]
      rw [if_neg (by simp [hsch, hrest])]
      simp only [hspan]
      rw [if_neg hh]
    exact ⟨key origin, fun origin2 => (key origin2).trans (key origin).symm,
      by simp [finalizeRedirect, hsne, key origin]⟩
  · intro hsne hnone
    simp [finalizeRedirect, hsne, hnone]

/-- Witness for C7: a relative instruction resolved against the origin, an
absolute instruction parsed verbatim, and a malformed instruction mapped to
a 500 `server_error`. -/
theorem c7_redirect_finalizer_witness :
    finalizeRedirect id ⟨"https", "app.example", "/"⟩ (some "/cb?code=1") =
      .redirect 303 ⟨"https", "app.example", "/cb?code=1"⟩
    ∧ resolveURL "https://client.example/cb?code=abc" ⟨"https", "app.example", "/"⟩ =
        some ⟨"https", "client.example", "/cb?code=abc"⟩
    ∧ finalizeRedirect id ⟨"https", "app.example", "/"⟩ (some "://x") =
        .json 500 "server_error" "Invalid redirect URL from provider" := by
  refine ⟨?_, ?_, ?_⟩
  · have h := (c7_redirect_finalizer id ⟨"https", "app.example", "/"⟩ "/cb?code=1").1
      (by decide)
    exact h.2.trans (by decide)
  · have h := (c7_redirect_finalizer id ⟨"https", "app.example", "/"⟩
      "https://client.example/cb?code=abc").2.1
      "https".data "client.example/cb?code=abc".data "client.example".data "/cb?code=abc".data
      (by decide) (by decide) (by decide) (by decide) (by decide) (by decide)
    exact h.1.trans (by decide)
  · exact (c7_redirect_finalizer id ⟨"https", "app.example", "/"⟩ "://x").2.2
      (by decide) (by decide)
